import Mathlib

/-!
Verification of the path/namespace model, listing cache, batch planner and
orchestrator operations of the cosfs `BaseCOSFileSystem` (src/cosfs/base.py).
Paths are modelled as lists of characters; the directory-listing cache and the
endpoint are threaded through the stateful operations explicitly; Python
exceptions are modelled with `Except`.
-/

/-- The fsspec framework root marker for this filesystem
(`AbstractFileSystem.root_marker`, the empty string); the framework is an
external collaborator of base.py.  An empty path models the empty Python
string. -/
def rootMarker : List Char := []

/-- The protocol scheme `"cos://"` tested by `_strip_protocol`
(base.py line 131). -/
def cosScheme : List Char := ['c', 'o', 's', ':', '/', '/']

/-- Model of `BaseCOSFileSystem._strip_protocol` (base.py lines 113-133) on a single
string path: when the path starts with `"cos://"` drop its first five
characters (Python `path_string[5:]`, keeping one slash), then
`path_string or cls.root_marker`. -/
def _strip_protocol (path : List Char) : List Char :=
  let path1 := if cosScheme.isPrefixOf path then path.drop 5 else path
  if path1.isEmpty then rootMarker else path1

/-- Python `str.lstrip("/")`: drop every leading slash character. -/
def lstripSlash (p : List Char) : List Char :=
  p.dropWhile (fun c => c == '/')

/-- Model of `split_path` (base.py lines 135-156): strip the protocol, trim leading
slashes, and if no slash remains the whole remainder is the bucket with an
empty key, otherwise split on the first slash (Python `path.split("/", 1)`)
into bucket and key. -/
def split_path (path : List Char) : List Char × List Char :=
  let p := lstripSlash (_strip_protocol path)
  if !(p.contains '/') then (p, [])
  else (p.takeWhile (fun c => !(c == '/')),
        (p.dropWhile (fun c => !(c == '/'))).drop 1)

/-- Python `path.rsplit("/", 1)[0]`: everything before the last slash. -/
def beforeLastSlash (p : List Char) : List Char :=
  ((p.reverse.dropWhile (fun c => !(c == '/'))).drop 1).reverse

/-- Modelled from the spec: the FilesystemFramework path-ancestor helper
`AbstractFileSystem._parent` consumed by base.py (the framework is an external
collaborator, spec section 6): strip the protocol, and when a slash is present
return everything before the last slash prefixed by the root marker, otherwise
the root marker. -/
def _parent (path : List Char) : List Char :=
  let p := _strip_protocol path
  if p.contains '/' then rootMarker ++ beforeLastSlash p else rootMarker

/-- The directory-listing cache (`self.dircache`): an association list from
normalised path keys to listing payloads; the payload contents are irrelevant
to the claims, so they are plain numbers. -/
abbrev DirCache : Type := List (List Char × Nat)

/-- Python `dict.pop(key, None)`: remove the entry with the given key
(a no-op when the key is absent). -/
def popKey (c : DirCache) (k : List Char) : DirCache :=
  c.filter (fun kv => !(kv.1 == k))

/-- Whether the cache holds an entry with the given key. -/
def hasKey (c : DirCache) (k : List Char) : Bool :=
  c.any (fun kv => kv.1 == k)

/-- The `while norm_path:` loop of `invalidate_cache` (base.py lines 165-167):
pop the current path, then move to its parent.  The fuel argument is only a
termination device: `_parent` strictly shortens a non-empty path
(`_parent_length_lt`), so fuel `p.length` always reaches the loop exit
(`invChain_fuel_irrelevant`). -/
def invChain (fuel : Nat) (c : DirCache) (p : List Char) : DirCache :=
  match fuel with
  | 0 => c
  | f + 1 => if p.isEmpty then c else invChain f (popKey c p) (_parent p)

/-- Model of `invalidate_cache` with a path argument (base.py lines 158-167): normalise
the path, pop its entry, then walk the parent chain popping every level until
the path is exhausted.  (With no argument the code clears the whole cache;
the claims only concern the path form.) -/
def invalidate_cache (c : DirCache) (path : List Char) : DirCache :=
  let n := lstripSlash (_strip_protocol path)
  invChain n.length (popKey c n) n

/-- The Python exceptions raised by base.py: `ValueError` (the spec's
InvalidArgument), `KeyError` (raised by `set.pop()` on an empty set) and
`NotImplementedError`.  The messages carried by `ValueError` are not
modelled. -/
inductive PyError where
  | valueError
  | keyError
  | notImplementedError
  deriving DecidableEq

/-- The Python `set` `buckets` built by `_get_batch_delete_key_list`
(base.py lines 184-188), modelled as the list of distinct buckets in order of
first occurrence: only its size and, when it is a singleton, its unique
element are observed (`set.pop()` returns the element of a one-element set and
raises `KeyError` on an empty set). -/
def distinctBuckets (pathlist : List (List Char)) : List (List Char) :=
  pathlist.foldl
    (fun acc p =>
      let b := (split_path p).1
      if acc.contains b then acc else acc ++ [b])
    []

/-- Model of `_get_batch_delete_key_list` (base.py lines 183-197) with the dircache
threaded explicitly: collect buckets and keys, raise `ValueError` on more than
one distinct bucket, pop the bucket from the set (`KeyError` when the path
list is empty), raise `ValueError` on more than 1000 paths, then invalidate
every path's parent directory and return the bucket with the key list. -/
def _get_batch_delete_key_list (c : DirCache) (pathlist : List (List Char)) :
    Except PyError (List Char × List (List Char)) × DirCache :=
  let buckets := distinctBuckets pathlist
  let key_list := pathlist.map (fun p => (split_path p).2)
  if 1 < buckets.length then (Except.error PyError.valueError, c)
  else
    match buckets with
    | [] => (Except.error PyError.keyError, c)
    | bucket :: _ =>
      if 1000 < pathlist.length then (Except.error PyError.valueError, c)
      else
        (Except.ok (bucket, key_list),
         pathlist.foldl (fun cc p => invalidate_cache cc (_parent p)) c)

/-- Python truthiness of the optional integer `maxdepth` argument:
`None` and `0` are falsy. -/
def optIntTruthy : Option Int → Bool
  | none => false
  | some d => !(d == 0)

/-- Model of `_verify_find_arguments` (base.py lines 169-181): strip the protocol,
raise `ValueError` when the bucket is empty (root path), raise `ValueError`
when `prefix` is combined with a truthy `withdirs` or `maxdepth`, otherwise
return the stripped path. -/
def _verify_find_arguments (path : List Char) (maxdepth : Option Int)
    (withdirs : Bool) (pfx : List Char) : Except PyError (List Char) :=
  let p := _strip_protocol path
  let bucket := (split_path p).1
  if bucket.isEmpty then Except.error PyError.valueError
  else if (withdirs || optIntTruthy maxdepth) && !pfx.isEmpty then
    Except.error PyError.valueError
  else Except.ok p

/-- Model of `set_endpoint` (base.py lines 101-111) with the stored endpoint threaded
explicitly: raise `ValueError` on a falsy (empty) endpoint, leaving the stored
endpoint unchanged, otherwise store the new endpoint. -/
def set_endpoint (st : Option (List Char)) (endpoint : List Char) :
    Except PyError Unit × Option (List Char) :=
  if endpoint.isEmpty then (Except.error PyError.valueError, st)
  else (Except.ok (), some endpoint)

/-- The observable effect of a successful `touch`: the dircache after the
parent invalidation together with the `(path, mode)` of the
open-then-immediately-close empty write. -/
structure TouchEffect where
  cache : DirCache
  opened : List Char × String
  deriving DecidableEq

/-- Model of `touch` (base.py lines 236-252), with the result of the framework
`self.exists(path)` store round-trip supplied as the boolean `ex`: when
`truncate` is set or the path does not exist, invalidate the parent listing
and open the path in mode "wb" (immediately closed); otherwise raise
`NotImplementedError`. -/
def touch (c : DirCache) (path : List Char) (ex : Bool) (truncate : Bool) :
    Except PyError TouchEffect :=
  if truncate || !ex then
    Except.ok ⟨invalidate_cache c (_parent path), (path, ("wb"))⟩
  else Except.error PyError.notImplementedError

/-- The constant `DEFAULT_BLOCK_SIZE = 5 * 2**20` (base.py line 24). -/
def DEFAULT_BLOCK_SIZE : Nat := 5 * 2 ^ 20

/-- The configuration state established by `BaseCOSFileSystem.__init__`
(base.py lines 84-99) that `_open` reads. -/
structure FSConfig where
  default_block_size : Nat
  default_cache_type : String
  deriving DecidableEq

/-- Model of `BaseCOSFileSystem.__init__` (base.py lines 84-99) restricted to the
fields the claims observe: `self._default_block_size` is
`default_block_size or DEFAULT_BLOCK_SIZE` (Python `or`: `None` and `0` are
falsy) and `self._default_cache_type` is the given cache type. -/
def cosInit (default_cache_type : String) (default_block_size : Option Nat) :
    FSConfig :=
  ⟨match default_block_size with
   | none => DEFAULT_BLOCK_SIZE
   | some n => if n == 0 then DEFAULT_BLOCK_SIZE else n,
   default_cache_type⟩

/-- Modelled from the spec: the `OSSFile` (StreamingFile) handle constructed
by `_open`; file.py is absent from src/, so the handle records the fields of
the spec's FileHandle (section 3) that the claims observe. -/
structure OSSFile where
  path : List Char
  mode : String
  block_size : Nat
  autocommit : Bool
  cache_type : String
  deriving DecidableEq

/-- Modelled from the spec: the `OSSFile` constructor (file.py, absent from
src/); per spec sections 3 and 4.5 an unspecified block size resolves to the
filesystem default ("block size (default 5 MiB unless overridden at
filesystem or open-call level)"). -/
def OSSFile.make (fs : FSConfig) (path : List Char) (mode : String)
    (block_size : Option Nat) (autocommit : Bool) (cache_type : String) :
    OSSFile :=
  ⟨path, mode, block_size.getD fs.default_block_size, autocommit, cache_type⟩

/-- Model of `_open` (base.py lines 199-234): pop `cache_type` from the keyword
arguments with the filesystem default as fallback, then construct the
handle. -/
def _open (fs : FSConfig) (path : List Char) (mode : String)
    (block_size : Option Nat) (autocommit : Bool)
    (cache_type_kwarg : Option String) : OSSFile :=
  let cache_type := cache_type_kwarg.getD fs.default_cache_type
  OSSFile.make fs path mode block_size autocommit cache_type

/-- Dropping a prefix by predicate never lengthens a list. -/
theorem length_dropWhile_le (f : Char → Bool) (l : List Char) :
    (l.dropWhile f).length ≤ l.length := by
  induction l with
  | nil => exact Nat.le_refl _
  | cons a t ih =>
    rw [List.dropWhile_cons]
    split
    · exact Nat.le_succ_of_le ih
    · exact Nat.le_refl _

/-- Protocol stripping never lengthens a path. -/
theorem length_strip_le (p : List Char) : (_strip_protocol p).length ≤ p.length := by
  unfold _strip_protocol
  dsimp only
  split <;> split <;> simp [rootMarker, List.length_drop]

/-- Cutting a path at its last slash strictly shortens it. -/
theorem beforeLastSlash_length_lt (p : List Char) (h : p.contains '/' = true) :
    (beforeLastSlash p).length < p.length := by
  have hmem : '/' ∈ p.reverse := by
    simp only [List.mem_reverse]
    simpa using h
  have hne : p.reverse.dropWhile (fun c => !(c == '/')) ≠ [] := by
    intro hnil
    have hall := List.dropWhile_eq_nil_iff.mp hnil
    have h2 := hall _ hmem
    simp at h2
  have hlen1 : (p.reverse.dropWhile (fun c => !(c == '/'))).length ≤ p.length := by
    calc (p.reverse.dropWhile (fun c => !(c == '/'))).length
        ≤ p.reverse.length := length_dropWhile_le _ _
      _ = p.length := List.length_reverse _
  have hpos : 0 < (p.reverse.dropWhile (fun c => !(c == '/'))).length :=
    List.length_pos.mpr hne
  unfold beforeLastSlash
  simp only [List.length_reverse, List.length_drop]
  omega

/-- The framework parent helper strictly shortens a non-empty path, so the
`while` loop of `invalidate_cache` terminates. -/
theorem _parent_length_lt (p : List Char) (h : p ≠ []) :
    (_parent p).length < p.length := by
  show (if (_strip_protocol p).contains '/' then
          rootMarker ++ beforeLastSlash (_strip_protocol p)
        else rootMarker).length < p.length
  split
  · rename_i hc
    simp only [rootMarker, List.nil_append]
    exact Nat.lt_of_lt_of_le (beforeLastSlash_length_lt _ hc) (length_strip_le p)
  · simpa [rootMarker] using List.length_pos.mpr h

/-- The fuel of `invChain` is a pure termination device: any fuel of at least
the path length (in particular the `p.length` used by `invalidate_cache`)
yields the same result as the unbounded `while` loop of the source. -/
theorem invChain_fuel_irrelevant (f : Nat) :
    ∀ (g : Nat) (c : DirCache) (p : List Char),
      p.length ≤ f → p.length ≤ g → invChain f c p = invChain g c p := by
  induction f with
  | zero =>
    intro g c p hf _
    have hp : p = [] := List.length_eq_zero.mp (Nat.le_zero.mp hf)
    subst hp
    cases g <;> rfl
  | succ n ih =>
    intro g c p hf hg
    cases g with
    | zero =>
      have hp : p = [] := List.length_eq_zero.mp (Nat.le_zero.mp hg)
      subst hp
      rfl
    | succ m =>
      show (if p.isEmpty then c else invChain n (popKey c p) (_parent p))
          = (if p.isEmpty then c else invChain m (popKey c p) (_parent p))
      split
      · rfl
      · rename_i hne
        have hpn : p ≠ [] := by
          intro hx
          simp [hx] at hne
        have hlt := _parent_length_lt p hpn
        exact ih m (popKey c p) (_parent p) (by omega) (by omega)

/-- A key absent from the cache stays absent after any filtering. -/
theorem hasKey_filter_false (c : DirCache) (f : List Char × Nat → Bool)
    (k : List Char) (h : hasKey c k = false) : hasKey (c.filter f) k = false := by
  rw [Bool.eq_false_iff] at h ⊢
  intro hf
  apply h
  simp only [hasKey, List.any_eq_true] at hf ⊢
  obtain ⟨kv, hmem, hk⟩ := hf
  exact ⟨kv, (List.mem_filter.mp hmem).1, hk⟩

/-- Popping a key removes every entry with that key. -/
theorem hasKey_popKey_self (c : DirCache) (k : List Char) :
    hasKey (popKey c k) k = false := by
  rw [Bool.eq_false_iff]
  intro hf
  simp only [hasKey, popKey, List.any_eq_true] at hf
  obtain ⟨kv, hmem, hk⟩ := hf
  have h2 := (List.mem_filter.mp hmem).2
  simp [hk] at h2

/-- The invalidation loop never adds a key. -/
theorem hasKey_invChain_false (f : Nat) (c : DirCache) (p k : List Char)
    (h : hasKey c k = false) : hasKey (invChain f c p) k = false := by
  induction f generalizing c p with
  | zero => exact h
  | succ n ih =>
    show hasKey (if p.isEmpty then c else invChain n (popKey c p) (_parent p)) k = false
    split
    · exact h
    · exact ih _ _ (hasKey_filter_false _ _ _ h)

/-- After `invalidate_cache` on a path, the cache has no entry keyed by the
path's normalised form. -/
theorem hasKey_invalidate_self (c : DirCache) (q : List Char) :
    hasKey (invalidate_cache c q) (lstripSlash (_strip_protocol q)) = false := by
  unfold invalidate_cache
  exact hasKey_invChain_false _ _ _ _ (hasKey_popKey_self _ _)

/-- Invalidation never adds a key. -/
theorem hasKey_invalidate_false (c : DirCache) (q k : List Char)
    (h : hasKey c k = false) : hasKey (invalidate_cache c q) k = false := by
  unfold invalidate_cache
  exact hasKey_invChain_false _ _ _ _ (hasKey_filter_false _ _ _ h)

/-- Idempotence of `_strip_protocol`: stripping leaves either the original
path (no scheme present) or a slash-led remainder on which the scheme test
fails again. -/
theorem stripProtocol_idem (p : List Char) :
    _strip_protocol (_strip_protocol p) = _strip_protocol p := by
  by_cases h : cosScheme.isPrefixOf p = true
  · obtain ⟨t, ht⟩ := List.isPrefixOf_iff_prefix.mp h
    subst ht
    have h1 : _strip_protocol (cosScheme ++ t) = '/' :: t := by
      unfold _strip_protocol
      simp [h, cosScheme]
    rw [h1]
    unfold _strip_protocol
    simp [cosScheme, List.isPrefixOf]
  · by_cases hp : p = []
    · subst hp
      rfl
    · have h1 : _strip_protocol p = p := by
        unfold _strip_protocol
        simp [h, hp]
      rw [h1]
      exact h1

/-- Splitting a stripped path splits the original path: `split_path` strips
internally and stripping is idempotent. -/
theorem split_path_strip (q : List Char) :
    split_path (_strip_protocol q) = split_path q := by
  unfold split_path
  rw [stripProtocol_idem]

/-- The bucket accumulator of `_get_batch_delete_key_list` never becomes
empty once non-empty. -/
theorem distinctBuckets_aux_ne_nil (l : List (List Char)) :
    ∀ acc : List (List Char), acc ≠ [] →
      l.foldl
        (fun acc2 p =>
          let b := (split_path p).1
          if acc2.contains b then acc2 else acc2 ++ [b])
        acc ≠ [] := by
  induction l with
  | nil => exact fun acc h => h
  | cons p t ih =>
    intro acc h
    rw [List.foldl_cons]
    apply ih
    dsimp only
    split
    · exact h
    · simp

/-- A non-empty path list yields a non-empty bucket set. -/
theorem distinctBuckets_ne_nil (l : List (List Char)) (h : l ≠ []) :
    distinctBuckets l ≠ [] := by
  cases l with
  | nil => exact absurd rfl h
  | cons p t =>
    unfold distinctBuckets
    rw [List.foldl_cons]
    apply distinctBuckets_aux_ne_nil
    simp

/-- A key absent from the cache stays absent over the parent-invalidation
loop of `_get_batch_delete_key_list`. -/
theorem hasKey_foldInv_false (l : List (List Char)) (c : DirCache)
    (k : List Char) (h : hasKey c k = false) :
    hasKey (l.foldl (fun cc p => invalidate_cache cc (_parent p)) c) k = false := by
  induction l generalizing c with
  | nil => exact h
  | cons p t ih =>
    rw [List.foldl_cons]
    exact ih _ (hasKey_invalidate_false _ _ _ h)

/-- After the parent-invalidation loop, the normalised parent key of every
listed path is absent from the cache. -/
theorem foldInv_parent_absent (l : List (List Char)) (c : DirCache) :
    ∀ p ∈ l,
      hasKey (l.foldl (fun cc q => invalidate_cache cc (_parent q)) c)
        (lstripSlash (_strip_protocol (_parent p))) = false := by
  induction l generalizing c with
  | nil => intro p hp; cases hp
  | cons q t ih =>
    intro p hp
    rw [List.foldl_cons]
    rcases List.mem_cons.mp hp with rfl | hp2
    · exact hasKey_foldInv_false _ _ _ (hasKey_invalidate_self _ _)
    · exact ih _ _ hp2

/-- Claim C1: `split_path` on `"/bucket/a/b/c"` and `"/bucket"` behaves as claimed,
but on `"/bucket/key?versionId=v1"` it returns the two components
`("bucket", "key?versionId=v1")` without extracting the version `"v1"`,
contradicting both the claim and the docstring of `split_path` itself
(base.py lines 144-149), which shows the three-component result
`["mybucket", "path/to/versioned_file", "some_version_id"]`. -/
theorem C1_split_path_eval :
    split_path ("/bucket/a/b/c".data) = (("bucket".data), ("a/b/c".data)) ∧
    split_path ("/bucket".data) = (("bucket".data), []) ∧
    split_path ("/bucket/key?versionId=v1".data)
      = (("bucket".data), ("key?versionId=v1".data)) :=
  ⟨by decide, by decide, by decide⟩

/-- Claim C7: `_strip_protocol` is idempotent on every path string. -/
theorem C7_strip_protocol_idempotent (p : List Char) :
    _strip_protocol (_strip_protocol p) = _strip_protocol p :=
  stripProtocol_idem p

/-- Claim C10: on an empty path list the batch-delete planner raises `KeyError`
(from `set.pop()` on the empty bucket set), not `ValueError`, returns no
bucket/key result, and performs no cache invalidation. -/
theorem C10_empty_batch_keyerror (c : DirCache) :
    _get_batch_delete_key_list c [] = (Except.error PyError.keyError, c) := rfl

/-- Claim C2 counterexample: in a cache holding the four ancestor entries, the
root-marker entry and an unrelated entry, invalidating `"bucket/a/b/c"`
leaves the root-marker entry (and the unrelated entry) in place: the claim
that the root marker entry is removed is false, because the `while norm_path:`
loop stops once the parent chain reaches the empty root marker without
popping it. -/
theorem C2_root_marker_survives :
    invalidate_cache
      [(("bucket/a/b/c".data), 1), (("bucket/a/b".data), 2),
       (("bucket/a".data), 3), (("bucket".data), 4), (rootMarker, 5),
       (("other/x".data), 6)]
      ("bucket/a/b/c".data)
    = [(rootMarker, 5), (("other/x".data), 6)] := by decide

/-- Claim C2 (amended): invalidating `"bucket/a/b/c"` removes exactly the entries
keyed `"bucket/a/b/c"`, `"bucket/a/b"`, `"bucket/a"` and `"bucket"` from any
cache; the root-marker entry and every entry keyed by any other path are left
untouched. -/
theorem C2_invalidate_ancestor_chain (c : DirCache) :
    invalidate_cache c ("bucket/a/b/c".data)
      = c.filter (fun kv =>
          !(kv.1 == ("bucket/a/b/c".data) || kv.1 == ("bucket/a/b".data)
            || kv.1 == ("bucket/a".data) || kv.1 == ("bucket".data))) := by
  have h : invalidate_cache c ("bucket/a/b/c".data)
      = popKey (popKey (popKey (popKey (popKey c ("bucket/a/b/c".data))
          ("bucket/a/b/c".data)) ("bucket/a/b".data)) ("bucket/a".data))
          ("bucket".data) := rfl
  rw [h]
  simp only [popKey, List.filter_filter]
  apply List.filter_congr
  intro kv _
  cases h0 : kv.1 == ("bucket/a/b/c".data) <;>
    cases h1 : kv.1 == ("bucket/a/b".data) <;>
      cases h2 : kv.1 == ("bucket/a".data) <;>
        cases h3 : kv.1 == ("bucket".data) <;>
          simp [h0, h1, h2, h3]

/-- Claim C9: with no block size given at the call, the constructed handle uses the
filesystem's configured default block size, whose built-in default is 5 MiB;
with no cache type given, it uses the filesystem's configured default cache
type. -/
theorem C9_open_defaults (dct : String) (dbs : Option Nat) (path : List Char)
    (mode : String) (ac : Bool) :
    (_open (cosInit dct dbs) path mode none ac none).block_size
        = (cosInit dct dbs).default_block_size ∧
    (_open (cosInit dct dbs) path mode none ac none).cache_type
        = (cosInit dct dbs).default_cache_type ∧
    (cosInit dct none).default_block_size = 5 * 2 ^ 20 :=
  ⟨rfl, rfl, rfl⟩

/-- Unfolding of `_get_batch_delete_key_list` once the bucket set is known to
be non-empty. -/
theorem batch_cons_eq (c : DirCache) (l : List (List Char)) (b : List Char)
    (t : List (List Char)) (hdb : distinctBuckets l = b :: t) :
    _get_batch_delete_key_list c l =
      if 1 < (b :: t).length then (Except.error PyError.valueError, c)
      else if 1000 < l.length then (Except.error PyError.valueError, c)
      else (Except.ok (b, l.map (fun p => (split_path p).2)),
            l.foldl (fun cc p => invalidate_cache cc (_parent p)) c) := by
  unfold _get_batch_delete_key_list
  rw [hdb]

/-- Claim C3: the batch-delete planner fails with `ValueError` on more than one
distinct bucket and on more than 1000 paths; otherwise (exactly one bucket,
at most 1000 paths, hence a non-empty list) it returns that bucket together
with the keys in input order without deduplication, and the cache entry of
every input path's parent directory is invalidated. -/
theorem C3_batch_delete_plan (c : DirCache) (l : List (List Char)) :
    (1 < (distinctBuckets l).length →
        (_get_batch_delete_key_list c l).1 = Except.error PyError.valueError) ∧
    (1000 < l.length →
        (_get_batch_delete_key_list c l).1 = Except.error PyError.valueError) ∧
    (∀ b, distinctBuckets l = [b] → l.length ≤ 1000 →
        (_get_batch_delete_key_list c l).1
            = Except.ok (b, l.map (fun p => (split_path p).2)) ∧
        ∀ p ∈ l,
          hasKey (_get_batch_delete_key_list c l).2
            (lstripSlash (_strip_protocol (_parent p))) = false) := by
  refine ⟨?_, ?_, ?_⟩
  · intro h
    rcases hdb : distinctBuckets l with _ | ⟨b, t⟩
    · rw [hdb] at h
      exact absurd h (by decide)
    · rw [hdb] at h
      rw [batch_cons_eq c l b t hdb, if_pos h]
  · intro h
    have hl : l ≠ [] := by
      intro hx
      rw [hx] at h
      exact absurd h (by decide)
    rcases hdb : distinctBuckets l with _ | ⟨b, t⟩
    · exact absurd hdb (distinctBuckets_ne_nil l hl)
    · rw [batch_cons_eq c l b t hdb]
      by_cases h1 : 1 < (b :: t).length
      · rw [if_pos h1]
      · rw [if_neg h1, if_pos h]
  · intro b hdb hlen
    rw [batch_cons_eq c l b [] hdb]
    rw [if_neg (by simp), if_neg (Nat.not_lt.mpr hlen)]
    exact ⟨rfl, fun p hp => foldInv_parent_absent l c p hp⟩

/-- Claim C3 witness: a two-bucket list fails, a 1001-path single-bucket list
fails, and a one-bucket list with a duplicated path succeeds with the keys
in order (duplicates kept) and the parent's cache entry dropped. -/
theorem C3_batch_delete_plan_witness :
    (1 < (distinctBuckets [("/b1/k".data), ("/b2/k".data)]).length ∧
      (_get_batch_delete_key_list [] [("/b1/k".data), ("/b2/k".data)]).1
        = Except.error PyError.valueError) ∧
    (1000 < (List.replicate 1001 ("/b/k".data)).length ∧
      (_get_batch_delete_key_list [] (List.replicate 1001 ("/b/k".data))).1
        = Except.error PyError.valueError) ∧
    (distinctBuckets [("/bkt/a/x".data), ("/bkt/a/x".data)] = [("bkt".data)] ∧
      (_get_batch_delete_key_list [(("bkt/a".data), 3)]
          [("/bkt/a/x".data), ("/bkt/a/x".data)]).1
        = Except.ok (("bkt".data), [("a/x".data), ("a/x".data)]) ∧
      ∀ p ∈ [("/bkt/a/x".data), ("/bkt/a/x".data)],
        hasKey (_get_batch_delete_key_list [(("bkt/a".data), 3)]
            [("/bkt/a/x".data), ("/bkt/a/x".data)]).2
          (lstripSlash (_strip_protocol (_parent p))) = false) := by
  have h1 := (C3_batch_delete_plan [] [("/b1/k".data), ("/b2/k".data)]).1 (by decide)
  have h2 := (C3_batch_delete_plan [] (List.replicate 1001 ("/b/k".data))).2.1
    (by simp only [List.length_replicate]; omega)
  have h3 := (C3_batch_delete_plan [(("bkt/a".data), 3)]
      [("/bkt/a/x".data), ("/bkt/a/x".data)]).2.2 ("bkt".data) (by decide) (by decide)
  exact ⟨⟨by decide, h1⟩, ⟨by simp only [List.length_replicate]; omega, h2⟩,
    by decide, h3.1, h3.2⟩

/-- Claim C4: when `truncate` is set or the path does not exist, `touch` invalidates
the parent listing (the parent's normalised key is absent afterwards) and
performs the empty write `open(path, "wb")`-then-close, regardless of the
`truncate` flag in the non-existent case; when `truncate` is false and the
object exists, it raises `NotImplementedError`. -/
theorem C4_touch_semantics (c : DirCache) (path : List Char) (ex tr : Bool) :
    (tr = true ∨ ex = false →
        touch c path ex tr
          = Except.ok ⟨invalidate_cache c (_parent path), (path, ("wb"))⟩ ∧
        hasKey (invalidate_cache c (_parent path))
          (lstripSlash (_strip_protocol (_parent path))) = false) ∧
    (tr = false → ex = true →
        touch c path ex tr = Except.error PyError.notImplementedError) := by
  constructor
  · intro h
    refine ⟨?_, hasKey_invalidate_self _ _⟩
    rcases h with rfl | rfl
    · rfl
    · cases tr <;> rfl
  · intro h1 h2
    subst h1
    subst h2
    rfl

/-- Claim C4 witness: touching a missing path with `truncate` false still writes the
empty object and drops the parent's cache entry; touching an existing path
with `truncate` false raises `NotImplementedError`. -/
theorem C4_touch_semantics_witness :
    (touch [(("bkt".data), 7)] ("/bkt/a".data) false false
        = Except.ok ⟨[], (("/bkt/a".data), ("wb"))⟩ ∧
      hasKey (invalidate_cache [(("bkt".data), 7)] (_parent ("/bkt/a".data)))
        (lstripSlash (_strip_protocol (_parent ("/bkt/a".data)))) = false) ∧
    touch [] ("/bkt/a".data) true false
        = Except.error PyError.notImplementedError := by
  have h := (C4_touch_semantics [(("bkt".data), 7)] ("/bkt/a".data) false false).1
    (Or.inr rfl)
  have h2 := (C4_touch_semantics [] ("/bkt/a".data) true false).2 rfl rfl
  refine ⟨⟨?_, h.2⟩, h2⟩
  rw [h.1]
  rfl

/-- Claim C5: `_verify_find_arguments` fails with `ValueError` on a root path
(empty bucket); fails with `ValueError` whenever a non-empty prefix is
combined with `withdirs` or a truthy `maxdepth` (in Python, `None` and `0`
mean an unset `maxdepth`); and with only a prefix (no withdirs, no maxdepth)
on a bucketed path it succeeds, returning the stripped path. -/
theorem C5_verify_find (path : List Char) (maxdepth : Option Int)
    (withdirs : Bool) (pfx : List Char) :
    ((split_path path).1 = [] →
        _verify_find_arguments path maxdepth withdirs pfx
          = Except.error PyError.valueError) ∧
    (pfx ≠ [] → (withdirs = true ∨ optIntTruthy maxdepth = true) →
        _verify_find_arguments path maxdepth withdirs pfx
          = Except.error PyError.valueError) ∧
    ((split_path path).1 ≠ [] →
        _verify_find_arguments path none false pfx
          = Except.ok (_strip_protocol path)) := by
  refine ⟨?_, ?_, ?_⟩
  · intro h
    simp only [_verify_find_arguments]
    rw [split_path_strip, h]
    rfl
  · intro hp hcond
    simp only [_verify_find_arguments]
    rw [split_path_strip]
    by_cases hb2 : ((split_path path).1).isEmpty = true
    · rw [if_pos hb2]
    · rw [if_neg hb2, if_pos ?_]
      rcases hcond with h | h <;> simp [h, hp]
  · intro h
    simp only [_verify_find_arguments]
    rw [split_path_strip]
    have hb : ¬((split_path path).1.isEmpty = true) := by simpa using h
    have hc : ¬(((false || optIntTruthy none) && !pfx.isEmpty) = true) := by
      simp [optIntTruthy]
    rw [if_neg hb, if_neg hc]

/-- Claim C5 witness: the root path fails, prefix together with maxdepth 2 fails,
and prefix alone on "/bkt/a" succeeds with the stripped path. -/
theorem C5_verify_find_witness :
    ((split_path ("/".data)).1 = [] ∧
      _verify_find_arguments ("/".data) none false []
        = Except.error PyError.valueError) ∧
    (_verify_find_arguments ("/bkt/a".data) (some 2) false ("x".data)
        = Except.error PyError.valueError) ∧
    ((split_path ("/bkt/a".data)).1 ≠ [] ∧
      _verify_find_arguments ("/bkt/a".data) none false ("x".data)
        = Except.ok ("/bkt/a".data)) := by
  have h1 := (C5_verify_find ("/".data) none false []).1 (by decide)
  have h2 := (C5_verify_find ("/bkt/a".data) (some 2) false ("x".data)).2.1
    (by decide) (Or.inr (by decide))
  have h3 := (C5_verify_find ("/bkt/a".data) none false ("x".data)).2.2 (by decide)
  exact ⟨⟨by decide, h1⟩, h2, by decide, h3⟩

/-- Claim C6: validation failures create no partial state: whenever the batch-delete
planner rejects its path list (more than one distinct bucket, or more than
1000 paths) the cache is returned unchanged, and `set_endpoint` on a falsy
(empty) endpoint raises `ValueError` leaving the stored endpoint unchanged. -/
theorem C6_validation_no_partial_state (c : DirCache) (l : List (List Char))
    (st : Option (List Char)) (e : List Char) :
    ((1 < (distinctBuckets l).length ∨ 1000 < l.length) →
        (_get_batch_delete_key_list c l).1 = Except.error PyError.valueError ∧
        (_get_batch_delete_key_list c l).2 = c) ∧
    (e = [] →
        (set_endpoint st e).1 = Except.error PyError.valueError ∧
        (set_endpoint st e).2 = st) := by
  constructor
  · intro h
    rcases hdb : distinctBuckets l with _ | ⟨b, t⟩
    · have hl : l = [] := by
        by_contra hx
        exact distinctBuckets_ne_nil l hx hdb
      subst hl
      rcases h with h | h
      · rw [hdb] at h
        exact absurd h (by decide)
      · exact absurd h (by decide)
    · rw [batch_cons_eq c l b t hdb]
      rcases h with h | h
      · rw [hdb] at h
        rw [if_pos h]
        exact ⟨rfl, rfl⟩
      · by_cases h1 : 1 < (b :: t).length
        · rw [if_pos h1]
          exact ⟨rfl, rfl⟩
        · rw [if_neg h1, if_pos h]
          exact ⟨rfl, rfl⟩
  · intro h
    subst h
    exact ⟨rfl, rfl⟩

/-- Claim C6 witness: a cross-bucket delete plan leaves the concrete cache intact,
and an empty endpoint leaves the stored endpoint intact. -/
theorem C6_validation_no_partial_state_witness :
    ((1 < (distinctBuckets [("/b1/k".data), ("/b2/k".data)]).length ∨
        1000 < ([("/b1/k".data), ("/b2/k".data)] : List (List Char)).length) ∧
      (_get_batch_delete_key_list [(("b1".data), 1)]
          [("/b1/k".data), ("/b2/k".data)]).1 = Except.error PyError.valueError ∧
      (_get_batch_delete_key_list [(("b1".data), 1)]
          [("/b1/k".data), ("/b2/k".data)]).2 = [(("b1".data), 1)]) ∧
    (([] : List Char) = [] ∧
      (set_endpoint (some ("old".data)) []).1 = Except.error PyError.valueError ∧
      (set_endpoint (some ("old".data)) []).2 = some ("old".data)) := by
  have h := (C6_validation_no_partial_state [(("b1".data), 1)]
      [("/b1/k".data), ("/b2/k".data)] (some ("old".data)) []).1 (Or.inl (by decide))
  have h2 := (C6_validation_no_partial_state [(("b1".data), 1)]
      [("/b1/k".data), ("/b2/k".data)] (some ("old".data)) []).2 rfl
  exact ⟨⟨Or.inl (by decide), h.1, h.2⟩, rfl, h2⟩

/-- Claim C8: `_strip_protocol` and `split_path` are total Lean functions of every
path string (no failure is possible by construction), and malformed input,
where no slash remains after normalisation, degrades to the whole remainder
as the bucket with an empty key. -/
theorem C8_total_degrades (p : List Char)
    (h : (lstripSlash (_strip_protocol p)).contains '/' = false) :
    split_path p = (lstripSlash (_strip_protocol p), []) := by
  simp only [split_path]
  rw [h]
  rfl

/-- Claim C8 witness: a protocol-qualified path with no slash after the bucket
degrades to the whole remainder as the bucket with an empty key. -/
theorem C8_total_degrades_witness :
    ((lstripSlash (_strip_protocol ("cos://onlybucket".data))).contains '/'
        = false) ∧
    split_path ("cos://onlybucket".data)
      = (lstripSlash (_strip_protocol ("cos://onlybucket".data)), []) :=
  ⟨by decide, C8_total_degrades _ (by decide)⟩
